import Mathlib

/-!
Verification of `sage_setup/autogen/pari/generator.py`: a descriptor-driven
source-code generator that reads PARI function descriptors, filters eligible
functions (`can_handle_function`), routes each eligible descriptor to either
the value-type (`gen`) output file or the engine-type (`PariInstance`) output
file (`handle_pari_function`), emits one method per function
(`write_method`), and commits the two output files atomically via
write-to-tmp-then-rename (`__call__`).

The repository modules `parser.py`, `args.py` and `doc.py` are not part of
the sources under study; the argument/return specifications and the
prototype parser are modelled from the specification (and from the worked
examples embedded in `generator.py`'s doctests, which show the exact text
produced for `bnfinit`, `ellmodulareqn` and `setrand`).  Every definition
that is modelled rather than transcribed is marked `Modelled from the spec`.
-/

/-! ### Argument and return specifications -/

/-- The code fragments an argument object contributes to an emitted method.
`write_method` in `generator.py` only ever calls the four methods
`prototype_code`, `deprecation_warning_code`, `convert_code` and `call_code`
on an argument, so an argument is embedded as this record of the four
strings it produces for a fixed function name. -/
structure ArgCode where
  protoCode : String
  deprCode : String
  convCode : String
  callCode : String
deriving DecidableEq

/-- Modelled from the spec: the typed argument descriptions produced by the
missing Prototype Parser (`parser.py` / `args.py`).  The type tags are those
listed in the spec (native-handle `G`, optional native-handle `DG`,
signed-integer `L`, defaulted signed-integer `D<d>,L,`, optional
symbolic-variable `Dn`, variable `n`, string `s`, variable-precision `p`)
plus the synthetic receiver-self argument `PariInstanceArgument`. -/
inductive PariArg where
  | gen (name : String)
  | optGen (name : String)
  | long (name : String)
  | defLong (name : String) (dflt : String)
  | optVar (name : String)
  | var (name : String)
  | str (name : String)
  | prec
  | instanceSelf
deriving DecidableEq

/-- Modelled from the spec: `isinstance(args[0], PariArgumentGEN)`.  The
native-handle argument class covers both the required (`G`) and the
optional/defaulted (`DG`) native-handle argument. -/
def PariArg.isGEN : PariArg → Bool
  | .gen _ => true
  | .optGen _ => true
  | _ => false

/-- Modelled from the spec (and from the doctest output in `generator.py`,
which fixes the exact conversion/call text for `G`, `DG`, `L`, `D0,L,`,
`Dn`, `p` and the synthetic self): the four code fragments each argument
kind contributes.  No argument in the studied sources carries a deprecation
notice, so `deprCode` is empty throughout; `write_method` below stays
generic over arbitrary `ArgCode`s. -/
def PariArg.toCode : PariArg → ArgCode
  | .gen n =>
      { protoCode := n
        deprCode := ""
        convCode := "        cdef GEN _" ++ n ++ " = " ++ n ++ ".g\n"
        callCode := "_" ++ n }
  | .optGen n =>
      { protoCode := n ++ "=None"
        deprCode := ""
        convCode := "        cdef GEN _" ++ n ++ " = NULL\n        if " ++ n
          ++ " is not None:\n            " ++ n ++ " = objtogen(" ++ n
          ++ ")\n            _" ++ n ++ " = (<gen>" ++ n ++ ").g\n"
        callCode := "_" ++ n }
  | .long n =>
      { protoCode := "long " ++ n
        deprCode := ""
        convCode := ""
        callCode := n }
  | .defLong n d =>
      { protoCode := "long " ++ n ++ "=" ++ d
        deprCode := ""
        convCode := ""
        callCode := n }
  | .optVar n =>
      { protoCode := n ++ "=None"
        deprCode := ""
        convCode := "        cdef long _" ++ n ++ " = -1\n        if " ++ n
          ++ " is not None:\n            _" ++ n
          ++ " = pari_instance.get_var(" ++ n ++ ")\n"
        callCode := "_" ++ n }
  | .var n =>
      { protoCode := n
        deprCode := ""
        convCode := "        cdef long _" ++ n
          ++ " = pari_instance.get_var(" ++ n ++ ")\n"
        callCode := "_" ++ n }
  | .str n =>
      { protoCode := n
        deprCode := ""
        convCode := ""
        callCode := n }
  | .prec =>
      { protoCode := "long precision=0"
        deprCode := ""
        convCode := "        precision = prec_bits_to_words(precision)\n"
        callCode := "precision" }
  | .instanceSelf =>
      { protoCode := "self"
        deprCode := ""
        convCode := "        cdef PariInstance pari_instance = <PariInstance>self\n"
        callCode := "self" }

/-- Modelled from the spec: the two return kinds (`ReturnSpec`): wrap the
native result and return it, or return nothing and clear transient native
state.  Text fixed by the doctests in `generator.py`. -/
inductive PariRet where
  | gen
  | void
deriving DecidableEq

/-- `ret.assign_code(call)`: the statement performing the native call. -/
def PariRet.assignCode : PariRet → String → String
  | .gen, call => "        cdef GEN _ret = " ++ call ++ "\n"
  | .void, call => "        " ++ call ++ "\n"

/-- `ret.return_code()`: the trailing result-handling statement. -/
def PariRet.returnCode : PariRet → String
  | .gen => "        return pari_instance.new_gen(_ret)\n"
  | .void => "        pari_instance.clear_stack()\n"

/-! ### The method emitter (`write_method`) -/

/-- `doc.replace("\n", "\n        ")` on the character list. -/
def indentChars : List Char → List Char
  | [] => []
  | '\n' :: cs => '\n' :: (("        ".data) ++ indentChars cs)
  | c :: cs => c :: indentChars cs

/-- The doc re-indentation performed at the top of `write_method`. -/
def indentDoc (doc : String) : String := String.mk (indentChars doc.data)

/-- `PariFunctionGenerator.write_method`, transcribed from
`generator.py` lines 192-228: builds the full text of one emitted method
from the function name, the C name, the full argument list `args`, the
return spec, the call-argument list `cargs` and the documentation.  The
template's `.format` substitution is performed directly. -/
def write_method (function cname : String) (args : List ArgCode)
    (ret : PariRet) (cargs : List ArgCode) (doc : String) : String :=
  let protoargs := String.intercalate ", " (args.map ArgCode.protoCode)
  let callargs := String.intercalate ", " (cargs.map ArgCode.callCode)
  "    def " ++ function ++ "(" ++ protoargs ++ "):\n"
    ++ "        r\"\"\"\n        " ++ indentDoc doc ++ "\n        \"\"\"\n"
    ++ String.join (args.map ArgCode.deprCode)
    ++ String.join (args.map ArgCode.convCode)
    ++ "        sig_on()\n"
    ++ ret.assignCode (cname ++ "(" ++ callargs ++ ")")
    ++ ret.returnCode

/-! ### The prototype parser (modelled) -/

/-- Split a character list at commas (used to read argument names out of the
help string). -/
def splitComma : List Char → List (List Char)
  | [] => [[]]
  | ',' :: t => [] :: splitComma t
  | c :: t =>
    match splitComma t with
    | g :: gs => (c :: g) :: gs
    | [] => [[c]]

/-- Modelled from the spec: recover one human-readable argument name from a
help-string fragment such as `P` or `\x7bflag=0\x7d` (strip an optional
opening brace, stop at `=` or at the closing brace). -/
def helpArgName (cs : List Char) : String :=
  let cs :=
    match cs with
    | '\x7b' :: t => t
    | _ => cs
  String.mk (cs.takeWhile (fun c => c != '=' && c != '\x7d'))

/-- Modelled from the spec: the parameter names recovered from the free-text
help string (the text between the first pair of parentheses, split at
commas). -/
def helpNames (helpStr : String) : List String :=
  let inner := ((helpStr.data.dropWhile (fun c => c != '(')).drop 1).takeWhile
    (fun c => c != ')')
  match inner with
  | [] => []
  | _ => (splitComma inner).map helpArgName

/-- The name used for the prototype argument at index `i`: the name from the
help string when available, otherwise a positional fallback. -/
def nameAt (names : List String) (i : Nat) : String :=
  names.getD i ("arg" ++ toString i)

/-- Modelled from the spec: decode the one-character-per-argument grammar.
Supported codes: `G` (native handle), `L` (signed integer), `n` (variable),
`s` (string), `p` (variable precision, fixed name `precision`), `DG`
(optional native handle), `Dn` (optional variable), `D<d>,L,` (signed
integer with default `d`).  Any other code is unsupported and yields `none`
(the `NotImplementedError` / ParseError skip signal).  The fuel argument is
the length of the remaining input; each step consumes at least one
character. -/
def parseArgs : Nat → List Char → List String → Nat → Option (List PariArg)
  | _, [], _, _ => some []
  | 0, _ :: _, _, _ => none
  | fuel + 1, 'G' :: t, names, i =>
    (parseArgs fuel t names (i + 1)).map (PariArg.gen (nameAt names i) :: ·)
  | fuel + 1, 'L' :: t, names, i =>
    (parseArgs fuel t names (i + 1)).map (PariArg.long (nameAt names i) :: ·)
  | fuel + 1, 'n' :: t, names, i =>
    (parseArgs fuel t names (i + 1)).map (PariArg.var (nameAt names i) :: ·)
  | fuel + 1, 's' :: t, names, i =>
    (parseArgs fuel t names (i + 1)).map (PariArg.str (nameAt names i) :: ·)
  | fuel + 1, 'p' :: t, names, i =>
    (parseArgs fuel t names i).map (PariArg.prec :: ·)
  | fuel + 1, 'D' :: 'G' :: t, names, i =>
    (parseArgs fuel t names (i + 1)).map (PariArg.optGen (nameAt names i) :: ·)
  | fuel + 1, 'D' :: 'n' :: t, names, i =>
    (parseArgs fuel t names (i + 1)).map (PariArg.optVar (nameAt names i) :: ·)
  | fuel + 1, 'D' :: t, names, i =>
    let dflt := t.takeWhile (fun c => c != ',')
    match t.drop (dflt.length + 1) with
    | 'L' :: ',' :: t2 =>
      (parseArgs fuel t2 names (i + 1)).map
        (PariArg.defLong (nameAt names i) (String.mk dflt) :: ·)
    | _ => none
  | _ + 1, _ :: _, _, _ => none

/-- Modelled from the spec: the return kind of a prototype.  A leading `v`
makes the return spec void-like; otherwise the return spec wraps the native
result, and the whole string is the argument part. -/
def protoRet (proto : String) : PariRet × List Char :=
  match proto.data with
  | 'v' :: t => (PariRet.void, t)
  | cs => (PariRet.gen, cs)

/-- Modelled from the spec: `parse_prototype(prototype, help, args)` from
the missing `parser.py`.  The initial argument list `extra` (used by the
Call Router to prepend a synthetic receiver-self) is prepended to the
parsed arguments; the help-derived names attach to the prototype-derived
arguments only.  `none` models the `NotImplementedError` raised on an
unsupported grammar code. -/
def parse_prototype (proto helpStr : String) (extra : List PariArg) :
    Option (List PariArg × PariRet) :=
  (parseArgs (protoRet proto).2.length (protoRet proto).2
      (helpNames helpStr) 0).map
    (fun as => (extra ++ as, (protoRet proto).1))

/-! ### The eligibility filter (`can_handle_function`) -/

/-- `function_blacklist` from `generator.py`: specific troublesome
functions. -/
def function_blacklist : List String := ["O", "alias", "listcreate"]

/-- An ASCII letter, as matched by `[A-Za-z]`. -/
def isAsciiLetter (c : Char) : Bool :=
  ('A' ≤ c && c ≤ 'Z') || ('a' ≤ c && c ≤ 'z')

/-- A character matched by `[A-Za-z0-9_]`. -/
def isWordChar (c : Char) : Bool :=
  isAsciiLetter c || ('0' ≤ c && c ≤ '9') || c == '_'

/-- `function_re.match(s)` for `function_re = ^[A-Za-z][A-Za-z0-9_]*$`. -/
def function_re_match (s : String) : Bool :=
  match s.data with
  | [] => false
  | c :: rest => isAsciiLetter c && rest.all isWordChar

/-- `PariFunctionGenerator.can_handle_function`, transcribed from
`generator.py` lines 67-102.  `declared` is the precomputed set
`self.declared` of native symbols; `cls` and `sec` are the optional
`class` / `section` entries of the descriptor's keyword record
(`kwds.get(key, "unknown")` on a missing key). -/
def can_handle_function (declared : List String) (function cname : String)
    (cls sec : Option String) : Bool :=
  if function ∈ function_blacklist then false
  else if !function_re_match function then false
  else if cname ∉ declared then false
  else if cls.getD "unknown" ∉ (["basic", "highlevel"] : List String) then false
  else if sec.getD "unknown" == "programming/control" then false
  else true

/-! ### The call router and `handle_pari_function` -/

/-- Which of the two output files a method is written to: the value-type
file (`auto_gen.pxi`, methods of `gen`) or the engine-type file
(`auto_instance.pxi`, methods of `PariInstance`). -/
inductive Target where
  | genFile
  | instanceFile
deriving DecidableEq

/-- The routed data `handle_pari_function` passes to `write_method`: the
target file, the full argument list `args`, the return spec, and the
call-argument list `cargs`. -/
structure Route where
  target : Target
  args : List PariArg
  ret : PariRet
  cargs : List PariArg
deriving DecidableEq

/-- The routing decision of `PariFunctionGenerator.handle_pari_function`
(`generator.py` lines 172-190): parse the prototype bare; on a parse error
skip; if the first parsed argument is a native handle (`PariArgumentGEN`),
target the value-type file with `cargs = args`; otherwise reparse with a
synthetic `PariInstanceArgument` prepended, target the engine-type file,
and drop that synthetic argument from `cargs`. -/
def handle_route (prototype helpStr : String) : Option Route :=
  match parse_prototype prototype helpStr [] with
  | none => none
  | some (args, ret) =>
    if args.head?.any PariArg.isGEN then
      some ⟨Target.genFile, args, ret, args⟩
    else
      match parse_prototype prototype helpStr [PariArg.instanceSelf] with
      | none => none
      | some (args2, ret2) =>
        some ⟨Target.instanceFile, args2, ret2, args2.drop 1⟩

/-- `PariFunctionGenerator.handle_pari_function`: route, then emit via
`write_method`.  `docOf` models the `get_rest_doc` documentation-extraction
interface (from the missing `doc.py`); `generator.py` passes
`get_rest_doc(function)` as the method's documentation. -/
def handle_pari_function (docOf : String → String)
    (function cname prototype helpStr : String) : Option (Target × String) :=
  (handle_route prototype helpStr).map fun r =>
    (r.target,
      write_method function cname (r.args.map PariArg.toCode) r.ret
        (r.cargs.map PariArg.toCode) (docOf function))

/-! ### Descriptors and the pipeline driver (`__call__`) -/

/-- A descriptor record from the Descriptor Store (`pari.desc`): the keys of
one record as consumed by `can_handle_function` and
`handle_pari_function`.  The optional `class` / `section` keys are named
`cls` / `sec` here.  `doc` is the raw documentation field of the record
(present in the store but not used for emission, which goes through the
documentation-extraction interface instead). -/
structure PariDesc where
  function : String
  cname : String
  prototype : String
  help : String
  doc : String
  cls : Option String
  sec : Option String
deriving DecidableEq

/-- The `__file__` path interpolated into the two banners. -/
def generatorFile : String := "sage_setup/autogen/pari/generator.py"

/-- `gen_banner` from `generator.py`: the fixed header of the value-type
output file. -/
def gen_banner : String :=
  "# This file is auto-generated by " ++ generatorFile ++ "\n\n"
    ++ "cdef class gen_auto:\n"
    ++ "    \"\"\"\n"
    ++ "    Part of the :class:`gen` class containing auto-generated functions.\n\n"
    ++ "    This class is not meant to be used directly, use the derived class\n"
    ++ "    :class:`gen` instead.\n"
    ++ "    \"\"\"\n"

/-- `instance_banner` from `generator.py`: the fixed header of the
engine-type output file. -/
def instance_banner : String :=
  "# This file is auto-generated by " ++ generatorFile ++ "\n\n"
    ++ "cdef class PariInstance_auto:\n"
    ++ "    \"\"\"\n"
    ++ "    Part of the :class:`PariInstance` class containing auto-generated functions.\n\n"
    ++ "    You must never use this class directly (in fact, Sage may crash if\n"
    ++ "    you do), use the derived class :class:`PariInstance` instead.\n"
    ++ "    \"\"\"\n"

/-- One loop iteration of `__call__` for descriptor `d`: the filter gate
followed by `handle_pari_function(**v)`.  `none` means nothing is written
for this descriptor (filter rejection or parse error). -/
def processDesc (declared : List String) (docOf : String → String)
    (d : PariDesc) : Option (Target × String) :=
  if can_handle_function declared d.function d.cname d.cls d.sec then
    handle_pari_function docOf d.function d.cname d.prototype d.help
  else
    none

/-- `D = sorted(D.values(), key=lambda d: d['function'])`: the one up-front
sort of the descriptor collection by function name. -/
def sortDescs (D : List PariDesc) : List PariDesc :=
  D.mergeSort (fun a b => a.function ≤ b.function)

/-- The `(name, block)` pair descriptor `d` contributes to the value-type
file, if any.  `print(s, file=f)` appends a newline after each method
text. -/
def genEntry (declared : List String) (docOf : String → String)
    (d : PariDesc) : Option (String × String) :=
  match processDesc declared docOf d with
  | some (Target.genFile, s) => some (d.function, s ++ "\n")
  | _ => none

/-- The `(name, block)` pair descriptor `d` contributes to the engine-type
file, if any. -/
def instEntry (declared : List String) (docOf : String → String)
    (d : PariDesc) : Option (String × String) :=
  match processDesc declared docOf d with
  | some (Target.instanceFile, s) => some (d.function, s ++ "\n")
  | _ => none

/-- The `(name, block)` pairs appended to the value-type file, in processing
order over an already-sorted descriptor list `S`. -/
def genEmitted (declared : List String) (docOf : String → String)
    (S : List PariDesc) : List (String × String) :=
  S.filterMap (genEntry declared docOf)

/-- The `(name, block)` pairs appended to the engine-type file. -/
def instEmitted (declared : List String) (docOf : String → String)
    (S : List PariDesc) : List (String × String) :=
  S.filterMap (instEntry declared docOf)

/-- The full content written to the value-type temporary file over a run on
store `D`: banner, then the method blocks in sorted processing order. -/
def outGen (declared : List String) (docOf : String → String)
    (D : List PariDesc) : String :=
  gen_banner ++ String.join ((genEmitted declared docOf (sortDescs D)).map Prod.snd)

/-- The full content written to the engine-type temporary file. -/
def outInst (declared : List String) (docOf : String → String)
    (D : List PariDesc) : String :=
  instance_banner
    ++ String.join ((instEmitted declared docOf (sortDescs D)).map Prod.snd)

/-! ### Filesystem model for the atomic commit -/

/-- The `name + '.tmp'` temporary path used for both output files. -/
def tmpName (p : String) : String := p ++ ".tmp"

/-- The contents of the four paths `__call__` touches: the two canonical
paths (`auto_gen.pxi`, `auto_instance.pxi`) and their `.tmp` temporaries.
`none` means the path does not exist. -/
structure FSState where
  genCanon : Option String
  instCanon : Option String
  genTmp : Option String
  instTmp : Option String
deriving DecidableEq

/-- The temporary-file contents after the first `k` descriptors of the
sorted list `S` have been processed. -/
def tmpsAfter (declared : List String) (docOf : String → String)
    (S : List PariDesc) (k : Nat) : String × String :=
  (gen_banner ++ String.join ((genEmitted declared docOf (S.take k)).map Prod.snd),
   instance_banner
     ++ String.join ((instEmitted declared docOf (S.take k)).map Prod.snd))

/-- The sequence of filesystem states `__call__` moves through, in order:
the initial state; the states during Processing (tmp files opened with the
banners, then grown by one descriptor at a time, canonical paths untouched
throughout); the state after `os.rename` of the value-type file; and the
state after `os.rename` of the engine-type file. -/
def runTrace (fs0 : FSState) (declared : List String)
    (docOf : String → String) (D : List PariDesc) : List FSState :=
  let S := sortDescs D
  let mid := (List.range (S.length + 1)).map fun k =>
    { fs0 with
        genTmp := some (tmpsAfter declared docOf S k).1
        instTmp := some (tmpsAfter declared docOf S k).2 }
  fs0 :: mid
    ++ [{ genCanon := some (outGen declared docOf D)
          instCanon := fs0.instCanon
          genTmp := none
          instTmp := some (outInst declared docOf D) },
        { genCanon := some (outGen declared docOf D)
          instCanon := some (outInst declared docOf D)
          genTmp := none
          instTmp := none }]

/-- The filesystem state a completed run leaves behind (the last state of
`runTrace`). -/
def runResult (fs0 : FSState) (declared : List String)
    (docOf : String → String) (D : List PariDesc) : FSState :=
  (runTrace fs0 declared docOf D).getLastD fs0

/-! ### Auxiliary definitions for concrete statements -/

/-- Does `pat` occur at the start of the list? -/
def isPrefixL : List Char → List Char → Bool
  | [], _ => true
  | _ :: _, [] => false
  | a :: as, b :: bs => a == b && isPrefixL as bs

/-- Does `pat` occur anywhere in the list? -/
def containsSeq (pat : List Char) : List Char → Bool
  | [] => pat.isEmpty
  | c :: t => isPrefixL pat (c :: t) || containsSeq pat t

/-- Substring occurrence test, used to state the presence or absence of
particular statements inside an emitted method body. -/
def strContains (s pat : String) : Bool := containsSeq pat.data s.data

/-- The documentation text used in the concrete `setrand` computations
(standing in for the extracted documentation of `setrand`). -/
def setrandDoc : String := "reseeds the random number generator"

/-- The help text of the `setrand` descriptor. -/
def setrandHelp : String := "setrand(n): reset the seed of the random number generator"

/-- The method text the generator emits for the `setrand` descriptor
(`prototype \"vG\"`) with documentation `setrandDoc`. -/
def setrandMethod : String :=
  "    def setrand(n):\n        r\"\"\"\n        " ++ setrandDoc
    ++ "\n        \"\"\"\n        cdef GEN _n = n.g\n        sig_on()\n"
    ++ "        setrand(_n)\n        pari_instance.clear_stack()\n"

/-- A descriptor whose prototype uses grammar codes the generator does not
support (`V`, `I`, `=`): the PARI `forprime` control-like iterator. -/
def forprimeDesc : PariDesc :=
  { function := "forprime"
    cname := "forprime"
    prototype := "vV=GDGI"
    help := "forprime(p=a,\x7bb\x7d,seq): the sequence is evaluated"
    doc := ""
    cls := some "basic"
    sec := some "programming" }

/-! ### Helper lemmas -/

/-- `function_re.match` succeeds exactly on an ASCII letter followed by
ASCII word characters. -/
theorem function_re_match_iff (s : String) :
    function_re_match s = true ↔
      ∃ c cs, s.data = c :: cs ∧ isAsciiLetter c = true
        ∧ ∀ d ∈ cs, isWordChar d = true := by
  unfold function_re_match
  cases h : s.data with
  | nil => simp
  | cons c cs =>
    simp only [List.all_eq_true, Bool.and_eq_true, List.cons.injEq]
    exact ⟨fun h => ⟨c, cs, ⟨rfl, rfl⟩, h.1, h.2⟩,
      by rintro ⟨c1, cs1, ⟨rfl, rfl⟩, h1, h2⟩; exact ⟨h1, h2⟩⟩

/-- `isAsciiLetter` in terms of character ranges. -/
theorem isAsciiLetter_iff (c : Char) :
    isAsciiLetter c = true ↔ (('A' ≤ c ∧ c ≤ 'Z') ∨ ('a' ≤ c ∧ c ≤ 'z')) := by
  simp [isAsciiLetter, Bool.or_eq_true, Bool.and_eq_true, decide_eq_true_eq]

/-- `isWordChar` in terms of character ranges. -/
theorem isWordChar_iff (c : Char) :
    isWordChar c = true ↔
      (('A' ≤ c ∧ c ≤ 'Z') ∨ ('a' ≤ c ∧ c ≤ 'z')
        ∨ ('0' ≤ c ∧ c ≤ '9') ∨ c = '_') := by
  simp [isWordChar, isAsciiLetter, Bool.or_eq_true, Bool.and_eq_true,
    decide_eq_true_eq, or_assoc]

/-- Boolean-level characterization of `can_handle_function`. -/
theorem can_handle_function_eq_true_iff (declared : List String)
    (function cname : String) (cls sec : Option String) :
    can_handle_function declared function cname cls sec = true ↔
      (function ∉ function_blacklist ∧ function_re_match function = true
        ∧ cname ∈ declared
        ∧ cls.getD "unknown" ∈ (["basic", "highlevel"] : List String)
        ∧ sec.getD "unknown" ≠ "programming/control") := by
  unfold can_handle_function
  split_ifs with h1 h2 h3 h4 h5 <;>
    simp_all [beq_iff_eq]

/-! ### C2: the eligibility filter -/

/-- C2: `can_handle_function` is a pure boolean predicate returning `True`
iff none of these holds: the name is in the deny-list
`O`/`alias`/`listcreate`; the name fails the pattern "ASCII letter followed
by ASCII letters/digits/underscore"; the cname is not among the declared
native symbols; the class tag is neither `basic` nor `highlevel`; the
section tag equals `programming/control`.  (Purity holds by construction:
the embedding is a function of its arguments only, mirroring the Python
method, which reads only `self.declared` — passed here as `declared` — and
mutates nothing.) -/
theorem c2_can_handle_function_iff (declared : List String)
    (function cname : String) (cls sec : Option String) :
    can_handle_function declared function cname cls sec = true ↔
      (function ≠ "O" ∧ function ≠ "alias" ∧ function ≠ "listcreate")
      ∧ (∃ c cs, function.data = c :: cs
          ∧ (('A' ≤ c ∧ c ≤ 'Z') ∨ ('a' ≤ c ∧ c ≤ 'z'))
          ∧ ∀ d ∈ cs, (('A' ≤ d ∧ d ≤ 'Z') ∨ ('a' ≤ d ∧ d ≤ 'z')
              ∨ ('0' ≤ d ∧ d ≤ '9') ∨ d = '_'))
      ∧ cname ∈ declared
      ∧ (cls.getD "unknown" = "basic" ∨ cls.getD "unknown" = "highlevel")
      ∧ sec.getD "unknown" ≠ "programming/control" := by
  rw [can_handle_function_eq_true_iff]
  constructor
  · rintro ⟨hb, hre, hc, hcls, hsec⟩
    refine ⟨?_, ?_, hc, ?_, hsec⟩
    · simp only [function_blacklist, List.mem_cons, List.not_mem_nil,
        or_false, not_or] at hb
      exact hb
    · obtain ⟨c, cs, hdata, hl, hw⟩ := (function_re_match_iff function).mp hre
      exact ⟨c, cs, hdata, (isAsciiLetter_iff c).mp hl,
        fun d hd => (isWordChar_iff d).mp (hw d hd)⟩
    · simpa using hcls
  · rintro ⟨⟨h1, h2, h3⟩, ⟨c, cs, hdata, hl, hw⟩, hc, hcls, hsec⟩
    refine ⟨?_, ?_, hc, ?_, hsec⟩
    · simp [function_blacklist, h1, h2, h3]
    · exact (function_re_match_iff function).mpr
        ⟨c, cs, hdata, (isAsciiLetter_iff c).mpr hl,
          fun d hd => (isWordChar_iff d).mpr (hw d hd)⟩
    · simpa using hcls

/-! ### C10: missing `class` / `section` keys -/

/-- C10: a missing `class` key defaults to the tag `unknown`, which is not
an accepted class, so the descriptor is always rejected; a missing
`section` key also defaults to `unknown`, which never triggers the
control-flow-section rejection, so eligibility then reduces to exactly the
other four checks. -/
theorem c10_missing_class_or_section (declared : List String)
    (function cname : String) :
    (∀ sec : Option String,
      can_handle_function declared function cname none sec = false)
    ∧ (∀ cls : Option String,
      can_handle_function declared function cname cls none = true ↔
        (function ∉ function_blacklist ∧ function_re_match function = true
          ∧ cname ∈ declared
          ∧ (cls.getD "unknown" = "basic" ∨ cls.getD "unknown" = "highlevel"))) := by
  constructor
  · intro sec
    unfold can_handle_function
    split_ifs with h1 h2 h3 h4 h5 <;> first
      | rfl
      | exact absurd h4 (by simp)
  · intro cls
    rw [can_handle_function_eq_true_iff]
    simp only [Option.getD_none]
    constructor
    · rintro ⟨hb, hre, hc, hcls, _⟩
      exact ⟨hb, hre, hc, by simpa using hcls⟩
    · rintro ⟨hb, hre, hc, hcls⟩
      exact ⟨hb, hre, hc, by simpa using hcls, by decide⟩

/-! ### Routing lemmas -/

/-- The parser's caller-supplied initial arguments are prepended verbatim:
reparsing with a synthetic leading argument yields that argument consed onto
the bare parse. -/
theorem parse_prototype_extra (proto helpStr : String) (extra : List PariArg) :
    parse_prototype proto helpStr extra =
      (parse_prototype proto helpStr []).map
        (fun pr => (extra ++ pr.1, pr.2)) := by
  unfold parse_prototype
  cases parseArgs (protoRet proto).2.length (protoRet proto).2
      (helpNames helpStr) 0 <;> simp

/-- Unfolding of `handle_route` when the bare parse succeeds and the first
argument is a native handle. -/
theorem handle_route_gen (prototype helpStr : String)
    (args : List PariArg) (ret : PariRet)
    (hp : parse_prototype prototype helpStr [] = some (args, ret))
    (hG : args.head?.any PariArg.isGEN = true) :
    handle_route prototype helpStr =
      some ⟨Target.genFile, args, ret, args⟩ := by
  unfold handle_route
  rw [hp]
  simp [hG]

/-- Unfolding of `handle_route` when the bare parse succeeds and the first
argument is not a native handle (or there is no argument). -/
theorem handle_route_instance (prototype helpStr : String)
    (args : List PariArg) (ret : PariRet)
    (hp : parse_prototype prototype helpStr [] = some (args, ret))
    (hG : args.head?.any PariArg.isGEN = false) :
    handle_route prototype helpStr =
      some ⟨Target.instanceFile, PariArg.instanceSelf :: args, ret, args⟩ := by
  have h2 := parse_prototype_extra prototype helpStr [PariArg.instanceSelf]
  rw [hp] at h2
  unfold handle_route
  rw [hp]
  simp only [Option.map] at h2
  simp [hG, h2]

/-! ### C1: the call router -/

/-- C1: for every eligible descriptor the Call Router decides the receiver
from the bare parse's first argument.  If that argument is of
native-handle type the method is written to the value-type file, built
from the bare-parsed arguments with no synthetic self injected (its first
declared argument acts as the implicit receiver).  Otherwise the prototype
is reparsed with a synthetic receiver-self prepended at position 0, the
method is written to the engine-type file, and the call-argument list is
exactly the reparsed arguments after position 0. -/
theorem c1_call_router (docOf : String → String)
    (function cname prototype helpStr : String)
    (args : List PariArg) (ret : PariRet)
    (hp : parse_prototype prototype helpStr [] = some (args, ret)) :
    (args.head?.any PariArg.isGEN = true →
      handle_pari_function docOf function cname prototype helpStr =
        some (Target.genFile,
          write_method function cname (args.map PariArg.toCode) ret
            (args.map PariArg.toCode) (docOf function)))
    ∧ (args.head?.any PariArg.isGEN = false →
      parse_prototype prototype helpStr [PariArg.instanceSelf] =
          some (PariArg.instanceSelf :: args, ret)
        ∧ handle_pari_function docOf function cname prototype helpStr =
          some (Target.instanceFile,
            write_method function cname
              ((PariArg.instanceSelf :: args).map PariArg.toCode) ret
              (args.map PariArg.toCode) (docOf function))) := by
  constructor
  · intro hG
    unfold handle_pari_function
    rw [handle_route_gen prototype helpStr args ret hp hG]
    rfl
  · intro hG
    have h2 := parse_prototype_extra prototype helpStr [PariArg.instanceSelf]
    rw [hp] at h2
    refine ⟨by simpa using h2, ?_⟩
    unfold handle_pari_function
    rw [handle_route_instance prototype helpStr args ret hp hG]
    rfl

set_option maxRecDepth 10000 in
/-- Witness for C1 at the concrete `setrand` descriptor (prototype `vG`,
native-handle first argument: value-type branch). -/
theorem c1_call_router_witness :
    handle_pari_function (fun _ => setrandDoc) "setrand" "setrand" "vG"
        setrandHelp =
      some (Target.genFile,
        write_method "setrand" "setrand" [(PariArg.gen "n").toCode]
          PariRet.void [(PariArg.gen "n").toCode] setrandDoc) :=
  (c1_call_router (fun _ => setrandDoc) "setrand" "setrand" "vG" setrandHelp
    [PariArg.gen "n"] PariRet.void (by decide)).1 (by decide)

/-! ### C5: the value-type branch keeps its first argument (corrected) -/

set_option maxRecDepth 10000 in
/-- C5 counterexample: for the `setrand` descriptor (prototype `vG`, bare
first argument a native handle) the router does not exclude the first
argument from the call-argument handling.  The routed `cargs` is the full
argument list `[gen n]`, not the tail `[]` that exclusion would produce,
and that first argument's conversion code is nonempty (it is unwrapped
like any other argument, contradicting "neither converted nor passed
positionally"). -/
theorem c5_counterexample :
    (handle_route "vG" setrandHelp).map Route.cargs = some [PariArg.gen "n"]
    ∧ (handle_route "vG" setrandHelp).map (fun r => r.args.drop 1) = some []
    ∧ (some [PariArg.gen "n"] : Option (List PariArg)) ≠ some []
    ∧ (PariArg.gen "n").toCode.convCode ≠ "" := by
  refine ⟨by decide, by decide, by decide, by decide⟩

/-- C5 (amended): for every eligible descriptor whose bare-parsed first
argument is of native-handle type, the emitted method appears in the
value-type output file with that argument as the first signature
parameter.  The argument acts as the method receiver through the host
binding, but it is not excluded from the deprecation/conversion/
call-argument handling: the full bare-parsed argument list is used
unchanged both as `args` and as `cargs`, so the first argument is
converted like any other argument and passed as the first positional
argument of the native call; no synthetic self is injected. -/
theorem c5_gen_branch_keeps_first_argument (docOf : String → String)
    (function cname prototype helpStr : String)
    (args : List PariArg) (ret : PariRet)
    (hp : parse_prototype prototype helpStr [] = some (args, ret))
    (hG : args.head?.any PariArg.isGEN = true) :
    handle_route prototype helpStr = some ⟨Target.genFile, args, ret, args⟩
    ∧ handle_pari_function docOf function cname prototype helpStr =
        some (Target.genFile,
          write_method function cname (args.map PariArg.toCode) ret
            (args.map PariArg.toCode) (docOf function)) := by
  have h := handle_route_gen prototype helpStr args ret hp hG
  exact ⟨h, by unfold handle_pari_function; rw [h]; rfl⟩

set_option maxRecDepth 10000 in
/-- Witness for the amended C5 at the concrete `bnfinit` descriptor
(prototype `GD0,L,DGp`). -/
theorem c5_gen_branch_witness :
    handle_route "GD0,L,DGp" "bnfinit(P,\x7bflag=0\x7d,\x7btech=[]\x7d): compute" =
      some ⟨Target.genFile,
        [PariArg.gen "P", PariArg.defLong "flag" "0", PariArg.optGen "tech",
          PariArg.prec], PariRet.gen,
        [PariArg.gen "P", PariArg.defLong "flag" "0", PariArg.optGen "tech",
          PariArg.prec]⟩ :=
  (c5_gen_branch_keeps_first_argument (fun _ => "") "bnfinit" "bnfinit0"
    "GD0,L,DGp" "bnfinit(P,\x7bflag=0\x7d,\x7btech=[]\x7d): compute"
    [PariArg.gen "P", PariArg.defLong "flag" "0", PariArg.optGen "tech",
      PariArg.prec] PariRet.gen (by decide) (by decide)).1

/-! ### C6: the `setrand` example (corrected) -/

set_option maxRecDepth 10000 in
/-- C6 counterexample: the `setrand` descriptor (prototype `vG`) is routed
to the value-type (`gen`) output file, not to the engine-type
(`PariInstance`) file the claim names: its bare-parsed first argument is a
native handle. -/
theorem c6_counterexample :
    (handle_pari_function (fun _ => setrandDoc) "setrand" "setrand" "vG"
        setrandHelp).map Prod.fst = some Target.genFile
    ∧ Target.genFile ≠ Target.instanceFile := by
  refine ⟨by decide, by decide⟩

set_option maxRecDepth 10000 in
/-- C6 (amended): the `setrand` descriptor (name `setrand`, cname
`setrand`, prototype `vG`, class `basic`, section `programming/specific`)
produces a no-return **value-type** method named `setrand` taking one
native-handle argument, whose body contains the native-call guard
`sig_on()`, the call statement `setrand(_n)`, and a trailing
native-state-clear statement `pari_instance.clear_stack()`, with no
`return` of a wrapped value. -/
theorem c6_amended_setrand_value_type :
    handle_pari_function (fun _ => setrandDoc) "setrand" "setrand" "vG"
        setrandHelp = some (Target.genFile, setrandMethod)
    ∧ can_handle_function ["setrand"] "setrand" "setrand" (some "basic")
        (some "programming/specific") = true
    ∧ strContains setrandMethod "sig_on()" = true
    ∧ strContains setrandMethod "setrand(_n)" = true
    ∧ strContains setrandMethod "pari_instance.clear_stack()" = true
    ∧ strContains setrandMethod "return" = false := by
  refine ⟨by decide, by decide, by decide, by decide, by decide, by decide⟩

/-! ### C7: parse errors skip the descriptor without aborting -/

/-- A parse failure means the descriptor contributes nothing at all. -/
theorem processDesc_eq_none_of_parse_error (declared : List String)
    (docOf : String → String) (d : PariDesc)
    (hp : parse_prototype d.prototype d.help [] = none) :
    processDesc declared docOf d = none := by
  simp [processDesc, handle_pari_function, handle_route, hp]

/-- C7: if parsing a descriptor's prototype raises the
unsupported-grammar-code error (`NotImplementedError`, the ParseError
signal), that descriptor is skipped: `handle_pari_function` emits nothing,
and the per-file emission over any store containing the descriptor equals
the emission over the store with the descriptor removed — the surrounding
descriptors are processed exactly as before, so the run continues. -/
theorem c7_parse_error_skips (declared : List String)
    (docOf : String → String) (d : PariDesc) (S₁ S₂ : List PariDesc)
    (hp : parse_prototype d.prototype d.help [] = none) :
    handle_pari_function docOf d.function d.cname d.prototype d.help = none
    ∧ genEmitted declared docOf (S₁ ++ d :: S₂)
        = genEmitted declared docOf (S₁ ++ S₂)
    ∧ instEmitted declared docOf (S₁ ++ d :: S₂)
        = instEmitted declared docOf (S₁ ++ S₂) := by
  have hnone := processDesc_eq_none_of_parse_error declared docOf d hp
  refine ⟨by simp [handle_pari_function, handle_route, hp], ?_, ?_⟩
  · simp [genEmitted, List.filterMap_append, List.filterMap_cons, genEntry,
      hnone]
  · simp [instEmitted, List.filterMap_append, List.filterMap_cons, instEntry,
      hnone]

set_option maxRecDepth 10000 in
/-- Witness for C7 at the concrete `forprime` descriptor, whose prototype
`vV=GDGI` uses unsupported grammar codes. -/
theorem c7_parse_error_skips_witness :
    parse_prototype forprimeDesc.prototype forprimeDesc.help [] = none
    ∧ genEmitted ["forprime"] (fun _ => "") [forprimeDesc]
        = genEmitted ["forprime"] (fun _ => "") []
    ∧ instEmitted ["forprime"] (fun _ => "") [forprimeDesc]
        = instEmitted ["forprime"] (fun _ => "") [] :=
  ⟨by decide,
    (c7_parse_error_skips ["forprime"] (fun _ => "") forprimeDesc [] []
      (by decide)).2.1,
    (c7_parse_error_skips ["forprime"] (fun _ => "") forprimeDesc [] []
      (by decide)).2.2⟩

/-! ### C4: the fixed statement order of every emitted method -/

/-- C4: every emitted method body consists of, in this exact order: the
signature line built from the full argument list (each argument rendered
with its default marker, via its `prototype_code`); the indented
documentation block; the deprecation-notice statements in argument order;
the conversion statements in argument order (arguments not needing
native-representation unwrapping, such as the plain scalar `L` / `D,L,` /
`s` arguments, contribute the empty conversion and are passed through
unconverted); exactly one unconditional `sig_on()` guard statement; the
native call built from `cname` and the ordered call-argument list; and one
result-handling statement from the return spec (wrap-and-return for a
value-returning spec, clear-transient-state-and-return-nothing for the
void spec). -/
theorem c4_method_body_order (function cname : String) (args : List ArgCode)
    (ret : PariRet) (cargs : List ArgCode) (doc : String) :
    write_method function cname args ret cargs doc =
      ("    def " ++ function ++ "("
          ++ String.intercalate ", " (args.map ArgCode.protoCode) ++ "):\n")
        ++ ("        r\"\"\"\n        " ++ indentDoc doc ++ "\n        \"\"\"\n")
        ++ String.join (args.map ArgCode.deprCode)
        ++ String.join (args.map ArgCode.convCode)
        ++ "        sig_on()\n"
        ++ ret.assignCode (cname ++ "("
            ++ String.intercalate ", " (cargs.map ArgCode.callCode) ++ ")")
        ++ ret.returnCode
    ∧ (∀ n d, (PariArg.long n).toCode.convCode = ""
        ∧ (PariArg.defLong n d).toCode.convCode = ""
        ∧ (PariArg.str n).toCode.convCode = "")
    ∧ (∀ n, (PariArg.gen n).toCode.convCode =
        "        cdef GEN _" ++ n ++ " = " ++ n ++ ".g\n")
    ∧ PariRet.gen.returnCode = "        return pari_instance.new_gen(_ret)\n"
    ∧ PariRet.void.returnCode = "        pari_instance.clear_stack()\n" := by
  refine ⟨?_, fun _ _ => ⟨rfl, rfl, rfl⟩, fun _ => rfl, rfl, rfl⟩
  simp only [write_method, String.append_assoc]

/-! ### C8: output files are sorted by function name -/

/-- The name recorded in a value-type entry is the descriptor's function
name. -/
theorem genEntry_name (declared : List String) (docOf : String → String)
    (d : PariDesc) (x : String × String)
    (hx : genEntry declared docOf d = some x) : x.1 = d.function := by
  unfold genEntry at hx
  cases hpd : processDesc declared docOf d with
  | none => rw [hpd] at hx; cases hx
  | some ts =>
    rw [hpd] at hx
    obtain ⟨t, s⟩ := ts
    cases t with
    | genFile => cases hx; rfl
    | instanceFile => cases hx

/-- The name recorded in an engine-type entry is the descriptor's function
name. -/
theorem instEntry_name (declared : List String) (docOf : String → String)
    (d : PariDesc) (x : String × String)
    (hx : instEntry declared docOf d = some x) : x.1 = d.function := by
  unfold instEntry at hx
  cases hpd : processDesc declared docOf d with
  | none => rw [hpd] at hx; cases hx
  | some ts =>
    rw [hpd] at hx
    obtain ⟨t, s⟩ := ts
    cases t with
    | genFile => cases hx
    | instanceFile => cases hx; rfl

/-- After the driver's single up-front sort, descriptors with pairwise
distinct names are in strictly increasing name order. -/
theorem sortDescs_pairwise_lt (D : List PariDesc)
    (h : (D.map PariDesc.function).Nodup) :
    (sortDescs D).Pairwise (fun a b => a.function < b.function) := by
  have hperm : List.Perm (sortDescs D) D := List.mergeSort_perm D _
  have hnodup : ((sortDescs D).map PariDesc.function).Nodup :=
    ((hperm.map PariDesc.function).nodup_iff).mpr h
  have hne : (sortDescs D).Pairwise (fun a b => a.function ≠ b.function) :=
    List.pairwise_map.mp hnodup
  have hle : (sortDescs D).Pairwise (fun a b => a.function ≤ b.function) := by
    unfold sortDescs
    have hs := @List.sorted_mergeSort PariDesc
      (fun a b : PariDesc => decide (a.function ≤ b.function))
      (fun a b c h₁ h₂ => by
        simp only [decide_eq_true_eq] at h₁ h₂ ⊢
        exact le_trans h₁ h₂)
      (fun a b => by
        simp only [Bool.or_eq_true, decide_eq_true_eq]
        exact le_total a.function b.function)
      D
    exact hs.imp (fun hab => by simpa using hab)
  exact (hle.and hne).imp (fun hab => lt_of_le_of_ne hab.1 hab.2)

/-- C8: within each of the two output files the generated method blocks
appear in strictly increasing lexicographic order of function name: the
driver sorts the whole descriptor collection by name once
(`sortDescs`), and the per-file emission appends in that order.  The
hypothesis that the store's names are pairwise distinct is the store-level
uniqueness invariant (the store is a dictionary keyed by function
name). -/
theorem c8_output_sorted (declared : List String) (docOf : String → String)
    (D : List PariDesc) (h : (D.map PariDesc.function).Nodup) :
    List.Pairwise (· < ·)
        ((genEmitted declared docOf (sortDescs D)).map Prod.fst)
    ∧ List.Pairwise (· < ·)
        ((instEmitted declared docOf (sortDescs D)).map Prod.fst) := by
  have hlt := sortDescs_pairwise_lt D h
  constructor
  · unfold genEmitted
    rw [List.pairwise_map, List.pairwise_filterMap]
    refine hlt.imp ?_
    intro a b hab x hx y hy
    rw [genEntry_name declared docOf a x (Option.mem_def.mp hx),
      genEntry_name declared docOf b y (Option.mem_def.mp hy)]
    exact hab
  · unfold instEmitted
    rw [List.pairwise_map, List.pairwise_filterMap]
    refine hlt.imp ?_
    intro a b hab x hx y hy
    rw [instEntry_name declared docOf a x (Option.mem_def.mp hx),
      instEntry_name declared docOf b y (Option.mem_def.mp hy)]
    exact hab

set_option maxRecDepth 10000 in
/-- Witness for C8 on a concrete two-descriptor store with distinct
names. -/
theorem c8_output_sorted_witness :
    (([forprimeDesc, { forprimeDesc with function := "setrand" }].map
        PariDesc.function).Nodup)
    ∧ List.Pairwise (· < ·)
        ((genEmitted [] (fun _ => "")
          (sortDescs [forprimeDesc,
            { forprimeDesc with function := "setrand" }])).map Prod.fst) :=
  ⟨by decide,
    (c8_output_sorted [] (fun _ => "")
      [forprimeDesc, { forprimeDesc with function := "setrand" }]
      (by decide)).1⟩

/-! ### C3: atomic commit via tmp-write-then-rename -/

/-- C3: the canonical output files are replaced only after every descriptor
has been processed.  All generated text goes to distinct temporary paths
(the canonical path suffixed `.tmp`, which is never equal to the canonical
path itself); the run's filesystem trace splits into a prefix — the whole
Processing phase — on which both canonical paths still hold the previous
run's content, followed by exactly two rename states, value-type file
first and engine-type file second; and at every point of the trace each
canonical path independently holds either the old content or the complete
new content, never a mix. -/
theorem c3_atomic_commit (fs0 : FSState) (declared : List String)
    (docOf : String → String) (D : List PariDesc) :
    (∀ p : String, tmpName p ≠ p)
    ∧ (∃ pre : List FSState,
        runTrace fs0 declared docOf D = pre
          ++ [{ genCanon := some (outGen declared docOf D),
                instCanon := fs0.instCanon,
                genTmp := none,
                instTmp := some (outInst declared docOf D) },
              { genCanon := some (outGen declared docOf D),
                instCanon := some (outInst declared docOf D),
                genTmp := none,
                instTmp := none }]
        ∧ ∀ s ∈ pre, s.genCanon = fs0.genCanon ∧ s.instCanon = fs0.instCanon)
    ∧ (∀ s ∈ runTrace fs0 declared docOf D,
        (s.genCanon = fs0.genCanon
          ∨ s.genCanon = some (outGen declared docOf D))
        ∧ (s.instCanon = fs0.instCanon
          ∨ s.instCanon = some (outInst declared docOf D))) := by
  have hpre : ∀ s ∈ (fs0 :: (List.range ((sortDescs D).length + 1)).map
      (fun k =>
        { fs0 with
            genTmp := some (tmpsAfter declared docOf (sortDescs D) k).1
            instTmp := some (tmpsAfter declared docOf (sortDescs D) k).2 })),
      s.genCanon = fs0.genCanon ∧ s.instCanon = fs0.instCanon := by
    intro s hs
    rcases List.mem_cons.mp hs with h | h
    · subst h; exact ⟨rfl, rfl⟩
    · obtain ⟨k, _, rfl⟩ := List.mem_map.mp h
      exact ⟨rfl, rfl⟩
  refine ⟨?_, ?_, ?_⟩
  · intro p hp
    have hl := congrArg String.length hp
    have h4 : (".tmp" : String).length = 4 := by decide
    simp only [tmpName, String.length_append, h4] at hl
    omega
  · refine ⟨fs0 :: (List.range ((sortDescs D).length + 1)).map
      (fun k =>
        { fs0 with
            genTmp := some (tmpsAfter declared docOf (sortDescs D) k).1
            instTmp := some (tmpsAfter declared docOf (sortDescs D) k).2 }),
      ?_, hpre⟩
    simp [runTrace]
  · intro s hs
    simp only [runTrace] at hs
    rcases List.mem_cons.mp hs with h | h
    · subst h; exact ⟨Or.inl rfl, Or.inl rfl⟩
    · rcases List.mem_append.mp h with h | h
      · obtain ⟨k, _, rfl⟩ := List.mem_map.mp h
        exact ⟨Or.inl rfl, Or.inl rfl⟩
      · rcases List.mem_cons.mp h with h | h
        · subst h; exact ⟨Or.inr rfl, Or.inl rfl⟩
        · rcases List.mem_cons.mp h with h | h
          · subst h; exact ⟨Or.inr rfl, Or.inr rfl⟩
          · cases h

/-! ### C9: idempotence of a run -/

/-- The final state of a run: both canonical paths hold the newly generated
contents and the temporaries are gone — independently of the initial
filesystem state. -/
theorem runResult_eq (fs0 : FSState) (declared : List String)
    (docOf : String → String) (D : List PariDesc) :
    runResult fs0 declared docOf D =
      { genCanon := some (outGen declared docOf D),
        instCanon := some (outInst declared docOf D),
        genTmp := none,
        instTmp := none } := by
  have key : ∀ (x a b d : FSState) (l : List FSState),
      (x :: (l ++ [a, b])).getLastD d = b := by
    intro x a b d l
    rw [show x :: (l ++ [a, b]) = (x :: (l ++ [a])) ++ [b] from by simp,
      List.getLastD_concat]
  unfold runResult runTrace
  exact key _ _ _ _ _

/-- C9: running the generator twice on an unchanged Descriptor Store (same
descriptor records, same declared-symbols set, same extracted
documentation) is idempotent on the filesystem: the second run reproduces
exactly the first run's final state, so both output files have
byte-identical contents after either run. -/
theorem c9_idempotent (fs0 : FSState) (declared : List String)
    (docOf : String → String) (D : List PariDesc) :
    runResult (runResult fs0 declared docOf D) declared docOf D =
      runResult fs0 declared docOf D
    ∧ (runResult (runResult fs0 declared docOf D) declared docOf D).genCanon
        = (runResult fs0 declared docOf D).genCanon
    ∧ (runResult (runResult fs0 declared docOf D) declared docOf D).instCanon
        = (runResult fs0 declared docOf D).instCanon := by
  rw [runResult_eq, runResult_eq]
  exact ⟨rfl, rfl, rfl⟩

/-- Witness for C3 at a concrete path, initial filesystem state and
store: the temporary path differs from the canonical path. -/
theorem c3_atomic_commit_witness :
    tmpName "auto_gen.pxi" ≠ "auto_gen.pxi" :=
  (c3_atomic_commit ⟨none, none, none, none⟩ [] (fun _ => "") []).1
    "auto_gen.pxi"

/-- Witness for C10 at a concrete descriptor record missing its `class`
key: it is rejected. -/
theorem c10_missing_class_or_section_witness :
    can_handle_function ["setrand"] "setrand" "setrand" none
      (some "programming/specific") = false :=
  (c10_missing_class_or_section ["setrand"] "setrand" "setrand").1
    (some "programming/specific")
